import Mathlib

/-!
Verification of the deterministic playback/annotation core of the
temporal-summation animation scripts.

The three scripts share the same per-frame callback shape:

* `update(frame)` computes `idx = min(frame * step, len(time))`, sets the
  visible slices `time[:idx]`, `V[:idx]` for each channel, appends the
  one-shot threshold markers (`if idx >= int(T / dt) and len(stim_lines) < k`),
  and recomputes the highlight patch from `idx > 0 and 20 <= time[idx-1] <= 35`.
* `init()` clears `stim_lines` and hides the patch; with `repeat=True` the
  animation framework runs `init` again each time the frame sequence
  (`range(num_frames)`) is exhausted, which restarts the cycle.
* The channel data are extracted once, either with `dict.get(key, [])`
  (temporal_summation_experiment.py, inhibitory_version.py) or with direct
  indexing `dict[key]` (Excitation-inhibition_AMPA_GABA.py).

Numeric values are modelled as exact rationals.  At every constant the
scripts actually compare (`int(21/0.025)`, `int(26/0.025)`, `int(61/0.025)`,
and the bounds `20`, `35`), the IEEE-754 double computation performed by
Python yields exactly the same integers/comparisons as the rational model
(e.g. `21/0.025` rounds to `840.0`), so the embedding is faithful on the
executed comparisons.

Fallible operations (the element read `time[idx-1]`, direct dict indexing)
are embedded in `Option`; `none` models the raised Python exception.
-/

namespace TemporalSummation

/-- `simConfig.dt = 0.025` from the scripts, as an exact rational. -/
def simConfig_dt : ℚ := 25 / 1000

/-- Python `int(...)` applied to a numeric value: truncation toward zero. -/
def pyInt (q : ℚ) : ℤ := if 0 ≤ q then ⌊q⌋ else ⌈q⌉

/-- The chained comparison `20 <= t <= 35` evaluated on the revealed-up-to
time in `update` (the highlight-window test of both summation scripts). -/
def highlightEvaluate (t : ℚ) : Bool :=
  decide ((20 : ℚ) ≤ t) && decide (t ≤ 35)

/-- The immutable per-run data extracted from the simulation: the shared
time stamps `time` and the two voltage channels `V_wide` / `V_narrow`. -/
structure TraceData where
  time : List ℚ
  V_wide : List ℚ
  V_narrow : List ℚ
deriving DecidableEq

/-- The module-level mutable animation state touched by `update`/`init`:
the appended marker lines `stim_lines` (identified by their x-position)
and the visibility of `summation_patch`. -/
structure AnimState where
  data : TraceData
  stim_lines : List ℚ
  summation_visible : Bool
deriving DecidableEq

/-- What one call of `update` hands to the renderer: the two visible
slices (a time slice paired with a voltage slice), the marker list, and
the highlight flag. -/
structure RenderState where
  wide_slice : List ℚ × List ℚ
  narrow_slice : List ℚ × List ℚ
  markers : List ℚ
  highlight : Bool
deriving DecidableEq

/-- The three marker guards of `update` (temporal_summation_experiment.py
lines 161-167, inhibitory_version.py lines 142-148): for thresholds
21, 26, 61, append the line iff `idx >= int(T / dt)` and fewer than
`k` lines exist already. -/
def stimStep (idx : ℕ) (stim : List ℚ) : List ℚ :=
  let s1 := if pyInt (21 / simConfig_dt) ≤ (idx : ℤ) ∧ stim.length < 1 then stim ++ [21] else stim
  let s2 := if pyInt (26 / simConfig_dt) ≤ (idx : ℤ) ∧ s1.length < 2 then s1 ++ [26] else s1
  if pyInt (61 / simConfig_dt) ≤ (idx : ℤ) ∧ s2.length < 3 then s2 ++ [61] else s2

/-- The per-frame callback `update(frame)` with the hard-coded `step = 16`
of the two temporal-summation scripts.  `none` models a raised
`IndexError` from the element read `time[idx-1]` (the only fallible
operation; the `idx > 0` guard short-circuits exactly as in the source). -/
def update (frame : ℕ) (s : AnimState) : Option (AnimState × RenderState) :=
  let idx := min (frame * 16) s.data.time.length
  let stim := stimStep idx s.stim_lines
  let vis? : Option Bool :=
    if 0 < idx then (s.data.time.get? (idx - 1)).map highlightEvaluate
    else some false
  vis?.map (fun vis =>
    (⟨s.data, stim, vis⟩,
     ⟨(s.data.time.take idx, s.data.V_wide.take idx),
      (s.data.time.take idx, s.data.V_narrow.take idx),
      stim, vis⟩))

/-- The `init()` callback: clears `stim_lines` and hides the patch; the
trace data are untouched. -/
def init (s : AnimState) : AnimState :=
  ⟨s.data, [], false⟩

/-- `num_frames = (len(time) // 8) + 20` from the scripts. -/
def numFrames (d : TraceData) : ℕ := d.time.length / 8 + 20

/-- The value of `summation_patch` visibility produced by `update frame s`
(helper for stating `update_shape`; the in-range read is expressed with
`getD`). -/
def visAt (frame : ℕ) (s : AnimState) : Bool :=
  if 0 < min (frame * 16) s.data.time.length then
    ((s.data.time.get? (min (frame * 16) s.data.time.length - 1)).map highlightEvaluate).getD false
  else false

/-- The scheduling state of the looping animation: the per-cycle frame
sequence is `range(num_frames)`; with `repeat=True` the framework calls
`init` once the sequence is exhausted and then starts over at frame 0. -/
structure PlayerState where
  anim : AnimState
  frame : ℕ
deriving DecidableEq

/-- One host-timer tick of the looping animation: deliver the next frame of
the current cycle to `update`, or — when the frame sequence is exhausted —
perform the `repeat` restart (`init`, frame counter back to 0).  The second
component is the rendered output (`none` on the restart tick, which draws
nothing new). -/
def driverTick (p : PlayerState) : Option (PlayerState × Option RenderState) :=
  if p.frame < numFrames p.anim.data then
    (update p.frame p.anim).map (fun z => (⟨z.1, p.frame + 1⟩, some z.2))
  else
    some (⟨init p.anim, 0⟩, none)

/-- The module state right after the data extraction and figure setup:
`stim_lines = []`, patch invisible. -/
def initState (d : TraceData) : AnimState := ⟨d, [], false⟩

/-- The animation state after the first `n` frames `0, 1, ..., n-1` of a
cycle have been processed (`none` once any frame raised). -/
def runFrames (s : AnimState) : ℕ → Option AnimState
  | 0 => some s
  | n + 1 => (runFrames s n).bind (fun a => (update n a).map Prod.fst)

/-- The `stim_lines` marker list after the first `n` frames of a cycle that
started from the freshly initialised state. -/
def stimAfter (d : TraceData) (n : ℕ) : List ℚ :=
  ((runFrames (initState d) n).map (fun s => s.stim_lines)).getD []

/-- The reveal index computed by `update` for a given frame number:
`idx = min(frame * 16, len(time))`. -/
def idxAt (len frame : ℕ) : ℕ := min (frame * 16) len

/-- The reveal index seen by the *previous* frame: the marker list at the
start of frame `n` was produced from this index. -/
def idxBefore (len : ℕ) : ℕ → ℕ
  | 0 => 0
  | n + 1 => idxAt len n

/-- How many of the three marker guards have threshold index at most `j`. -/
def markLevel (j : ℕ) : ℕ :=
  if 2440 ≤ j then 3 else if 1040 ≤ j then 2 else if 840 ≤ j then 1 else 0

/-- The marker list determined by a reveal index `j`: the markers whose
threshold index `int(T / dt)` is at most `j`, in script order. -/
def expectedMarkers (j : ℕ) : List ℚ :=
  List.take (markLevel j) [21, 26, 61]

/-- `a` is an initial segment of `b` (the marker list only ever grows by
appending at the tail). -/
def InitSeg (a b : List ℚ) : Prop := ∃ t, a ++ t = b

/-- The clock formula shared by all scripts, with the step size left as a
parameter: `idx = min(frame * step, N)` (the spec's `advance()` returns
this with the frame counter already incremented, i.e. call `k` yields
`min(k * step, N)`). -/
def advanceIdx (step N k : ℕ) : ℕ := min (k * step) N

/-- A small concrete state used by witnesses. -/
def sampleState : AnimState := ⟨⟨[0, 1], [2, 3], [4, 5]⟩, [], false⟩

/-- A player state that has just exhausted an empty-data cycle. -/
def donePlayer : PlayerState := ⟨⟨⟨[], [], []⟩, [], false⟩, 20⟩

/-- A time sequence of `N` samples with fixed spacing `0.025` (sample `i`
carries timestamp `i * 0.025`), matching the recorded `t` vector. -/
def rampTime (N : ℕ) : List ℚ := (List.range N).map (fun i : ℕ => (i : ℚ) * (25 / 1000))

/-- Scenario A of the spec: 8000 samples at spacing `0.025`, arbitrary
voltages. -/
def scenarioA : TraceData :=
  ⟨rampTime 8000, List.replicate 8000 (-70), List.replicate 8000 (-70)⟩

/-- The three trigger thresholds with their sample indices `int(T / dt)`. -/
def trigPairs : List (ℚ × ℕ) := [(21, 840), (26, 1040), (61, 2440)]

/-- A trace long enough for the first two triggers to fire. -/
def mediumTrace : TraceData := ⟨List.replicate 1040 0, [], []⟩

/-- Data extraction of the two temporal-summation scripts (lines 118-124):
if `V_soma` is missing or not a dict both channels degrade to `[]`;
otherwise each channel is read with `dict.get(key, [])`. -/
def extractTraces (vsoma : Option (List (String × List ℚ))) : List ℚ × List ℚ :=
  match vsoma with
  | some d => ((d.lookup "cell_0").getD [], (d.lookup "cell_1").getD [])
  | none => ([], [])

/-- Data extraction of Excitation-inhibition_AMPA_GABA.py (lines 146-148):
direct indexing `['cell_0']` / `['cell_1']`; `none` models the raised
`KeyError`. -/
def extractTracesAB (vsoma : List (String × List ℚ)) : Option (List ℚ × List ℚ) :=
  (vsoma.lookup "cell_0").bind (fun a => (vsoma.lookup "cell_1").map (fun b => (a, b)))

lemma update_shape (frame : ℕ) (s : AnimState) :
    update frame s = some
      (⟨s.data, stimStep (min (frame * 16) s.data.time.length) s.stim_lines, visAt frame s⟩,
       ⟨(s.data.time.take (min (frame * 16) s.data.time.length),
         s.data.V_wide.take (min (frame * 16) s.data.time.length)),
        (s.data.time.take (min (frame * 16) s.data.time.length),
         s.data.V_narrow.take (min (frame * 16) s.data.time.length)),
        stimStep (min (frame * 16) s.data.time.length) s.stim_lines,
        visAt frame s⟩) := by
  unfold update visAt
  by_cases h : 0 < min (frame * 16) s.data.time.length
  · have hlt : min (frame * 16) s.data.time.length - 1 < s.data.time.length := by
      have h2 := min_le_right (frame * 16) s.data.time.length
      omega
    simp [h, List.getElem?_eq_getElem hlt]
  · simp [h]

lemma pyInt_21 : pyInt (21 / simConfig_dt) = 840 := by
  norm_num [pyInt, simConfig_dt]

lemma pyInt_26 : pyInt (26 / simConfig_dt) = 1040 := by
  norm_num [pyInt, simConfig_dt]

lemma pyInt_61 : pyInt (61 / simConfig_dt) = 2440 := by
  norm_num [pyInt, simConfig_dt]

lemma InitSeg.refl (a : List ℚ) : InitSeg a a := ⟨[], List.append_nil a⟩

lemma InitSeg.trans {a b c : List ℚ} (h1 : InitSeg a b) (h2 : InitSeg b c) :
    InitSeg a c := by
  obtain ⟨t1, ht1⟩ := h1
  obtain ⟨t2, ht2⟩ := h2
  exact ⟨t1 ++ t2, by rw [← List.append_assoc, ht1, ht2]⟩

lemma InitSeg.append (a t : List ℚ) : InitSeg a (a ++ t) := ⟨t, rfl⟩

lemma InitSeg.take {L : List ℚ} {i k : ℕ} (h : i ≤ k) :
    InitSeg (L.take i) (L.take k) := by
  refine ⟨(L.take k).drop i, ?_⟩
  have h1 : (L.take k).take i = L.take i := by
    rw [List.take_take, min_eq_left h]
  calc (L.take i) ++ (L.take k).drop i
      = (L.take k).take i ++ (L.take k).drop i := by rw [h1]
    _ = L.take k := List.take_append_drop i (L.take k)

lemma markLevel_mono {j k : ℕ} (h : j ≤ k) : markLevel j ≤ markLevel k := by
  unfold markLevel
  split_ifs <;> omega

lemma expectedMarkers_initSeg {j k : ℕ} (h : j ≤ k) :
    InitSeg (expectedMarkers j) (expectedMarkers k) :=
  InitSeg.take (markLevel_mono h)

lemma expectedMarkers_zero : expectedMarkers 0 = [] := by
  norm_num [expectedMarkers, markLevel]

/-- `stimStep` with the three threshold constants evaluated and the integer
comparisons restated over `ℕ`. -/
lemma stimStep_eq_natCond (idx : ℕ) (stim : List ℚ) :
    stimStep idx stim =
      (let s1 := if 840 ≤ idx ∧ stim.length < 1 then stim ++ [21] else stim
       let s2 := if 1040 ≤ idx ∧ s1.length < 2 then s1 ++ [26] else s1
       if 2440 ≤ idx ∧ s2.length < 3 then s2 ++ [61] else s2) := by
  unfold stimStep
  rw [pyInt_21, pyInt_26, pyInt_61]
  simp only [show ((840 : ℤ) ≤ (idx : ℤ)) ↔ 840 ≤ idx from by exact_mod_cast Iff.rfl,
    show ((1040 : ℤ) ≤ (idx : ℤ)) ↔ 1040 ≤ idx from by exact_mod_cast Iff.rfl,
    show ((2440 : ℤ) ≤ (idx : ℤ)) ↔ 2440 ≤ idx from by exact_mod_cast Iff.rfl]

/-- One tick of the marker logic maps the canonical marker list of the old
reveal index to the canonical marker list of the new (not smaller) one. -/
lemma stimStep_expectedMarkers {j idx : ℕ} (h : j ≤ idx) :
    stimStep idx (expectedMarkers j) = expectedMarkers idx := by
  rw [stimStep_eq_natCond]
  unfold expectedMarkers markLevel
  by_cases h3 : 2440 ≤ j <;> by_cases h2 : 1040 ≤ j <;> by_cases h1 : 840 ≤ j <;>
    by_cases g3 : 2440 ≤ idx <;> by_cases g2 : 1040 ≤ idx <;> by_cases g1 : 840 ≤ idx <;>
    first
      | (exfalso; omega)
      | (simp only [h1, h2, h3, g1, g2, g3, if_true, if_false, ite_true, ite_false]; decide)

lemma stimStep_zero (stim : List ℚ) : stimStep 0 stim = stim := by
  rw [stimStep_eq_natCond]
  norm_num

lemma initSeg_ite_append (L : List ℚ) (c : Prop) [Decidable c] (x : ℚ) :
    InitSeg L (if c then L ++ [x] else L) := by
  split_ifs
  · exact ⟨[x], rfl⟩
  · exact InitSeg.refl L

/-- The marker list only grows: one `update` tick appends, never removes. -/
lemma initSeg_stimStep (idx : ℕ) (L : List ℚ) : InitSeg L (stimStep idx L) := by
  rw [stimStep_eq_natCond]
  dsimp only
  exact InitSeg.trans
    (InitSeg.trans (initSeg_ite_append L _ 21) (initSeg_ite_append _ _ 26))
    (initSeg_ite_append _ _ 61)

lemma idxAt_mono {len n m : ℕ} (h : n ≤ m) : idxAt len n ≤ idxAt len m :=
  min_le_min (Nat.mul_le_mul_right 16 h) (le_refl len)

lemma idxBefore_le_idxAt (len n : ℕ) : idxBefore len n ≤ idxAt len n := by
  cases n with
  | zero => exact Nat.zero_le _
  | succ m => exact idxAt_mono (Nat.le_succ m)

lemma idxBefore_mono {len n m : ℕ} (h : n ≤ m) : idxBefore len n ≤ idxBefore len m := by
  cases n with
  | zero => exact Nat.zero_le _
  | succ k =>
      cases m with
      | zero => omega
      | succ l => exact idxAt_mono (by omega)

/-- After `n` frames of a cycle the state is: data untouched, marker list
fully determined by the reveal index of the previous frame. -/
lemma runFrames_shape (d : TraceData) :
    ∀ n, ∃ v : Bool, runFrames (initState d) n =
      some ⟨d, expectedMarkers (idxBefore d.time.length n), v⟩ := by
  intro n
  induction n with
  | zero =>
      exact ⟨false, by simp [runFrames, initState, idxBefore, expectedMarkers_zero]⟩
  | succ m ih =>
      obtain ⟨v, hv⟩ := ih
      have hle : idxBefore d.time.length m ≤ min (m * 16) d.time.length :=
        idxBefore_le_idxAt d.time.length m
      refine ⟨visAt m ⟨d, expectedMarkers (idxBefore d.time.length m), v⟩, ?_⟩
      rw [runFrames, hv]
      have hstep : stimStep (min (m * 16) d.time.length)
            (expectedMarkers (idxBefore d.time.length m)) =
          expectedMarkers (idxBefore d.time.length (m + 1)) :=
        stimStep_expectedMarkers hle
      simp [update_shape, hstep]

lemma stimAfter_eq (d : TraceData) (n : ℕ) :
    stimAfter d n = expectedMarkers (idxBefore d.time.length n) := by
  obtain ⟨v, hv⟩ := runFrames_shape d n
  simp [stimAfter, hv]

lemma mem_expectedMarkers_21 (j : ℕ) : (21 : ℚ) ∈ expectedMarkers j ↔ 840 ≤ j := by
  unfold expectedMarkers markLevel
  by_cases h3 : 2440 ≤ j <;> by_cases h2 : 1040 ≤ j <;> by_cases h1 : 840 ≤ j <;>
    first
      | (exfalso; omega)
      | (simp only [h1, h2, h3, if_true, if_false, ite_true, ite_false]; decide)

lemma mem_expectedMarkers_26 (j : ℕ) : (26 : ℚ) ∈ expectedMarkers j ↔ 1040 ≤ j := by
  unfold expectedMarkers markLevel
  by_cases h3 : 2440 ≤ j <;> by_cases h2 : 1040 ≤ j <;> by_cases h1 : 840 ≤ j <;>
    first
      | (exfalso; omega)
      | (simp only [h1, h2, h3, if_true, if_false, ite_true, ite_false]; decide)

lemma mem_expectedMarkers_61 (j : ℕ) : (61 : ℚ) ∈ expectedMarkers j ↔ 2440 ≤ j := by
  unfold expectedMarkers markLevel
  by_cases h3 : 2440 ≤ j <;> by_cases h2 : 1040 ≤ j <;> by_cases h1 : 840 ≤ j <;>
    first
      | (exfalso; omega)
      | (simp only [h1, h2, h3, if_true, if_false, ite_true, ite_false]; decide)

lemma rampTime_length (N : ℕ) : (rampTime N).length = N := by
  unfold rampTime
  rw [List.length_map, List.length_range]

lemma rampTime_get (N i : ℕ) (h : i < N) :
    (rampTime N).get? i = some ((i : ℚ) * (25 / 1000)) := by
  unfold rampTime
  rw [List.get?_eq_getElem?, List.getElem?_map, List.getElem?_range h]
  rfl

lemma scenarioA_time_length : scenarioA.time.length = 8000 := by
  simp only [scenarioA]
  exact rampTime_length 8000

lemma scenarioA_time_get (i : ℕ) (h : i < 8000) :
    scenarioA.time.get? i = some ((i : ℚ) * (25 / 1000)) := by
  simp only [scenarioA]
  exact rampTime_get 8000 i h

/-- C1's highlight-window function: the code's interval test is closed at
both ends, so evaluating at `t = 35.0` yields `true`, refuting the claimed
half-open behaviour (`evaluate(35.0) == false`). -/
theorem C1_highlight_halfopen_counterexample :
    highlightEvaluate 35 = true ∧ ¬ ((20 : ℚ) ≤ 35 ∧ (35 : ℚ) < 35) := by
  refine ⟨?_, ?_⟩ <;> norm_num [highlightEvaluate]

/-- C1 (amended): the highlight window of `update` is visible exactly on the
closed interval `20 <= t <= 35`; in particular `evaluate(19.9) = false`,
`evaluate(25.0) = true`, and `evaluate(35.0) = true`. -/
theorem C1_highlight_closed_interval :
    (∀ t : ℚ, highlightEvaluate t = true ↔ (20 ≤ t ∧ t ≤ 35)) ∧
    highlightEvaluate (199 / 10) = false ∧
    highlightEvaluate 25 = true ∧
    highlightEvaluate 35 = true := by
  refine ⟨fun t => ?_, ?_, ?_, ?_⟩ <;> norm_num [highlightEvaluate]

/-- C1 witness: the amended theorem evaluated at the concrete input `19.9`. -/
theorem C1_highlight_closed_interval_witness :
    highlightEvaluate (199 / 10) = false :=
  C1_highlight_closed_interval.2.1

/-- C2 counterexample: in the narrow-interval configuration (scenario A,
`step = 16`), tick 65 newly appends the `26` marker (`stim_lines` grows
from `[21]` to `[21, 26]`) although the revealed-up-to time
`time[idx-1] = 1039 * 0.025 = 25.975` is still below the threshold 26: the
code fires on `idx >= int(T/dt)`, which can precede the first tick whose
revealed time is `>= T`. -/
theorem C2_fires_early_counterexample :
    stimAfter scenarioA 65 = [21] ∧
    stimAfter scenarioA 66 = [21, 26] ∧
    scenarioA.time.get? (min (65 * 16) scenarioA.time.length - 1) =
      some (1039 * (25 / 1000)) ∧
    (1039 * (25 / 1000) : ℚ) < 26 := by
  refine ⟨?_, ?_, ?_, by norm_num⟩
  · rw [stimAfter_eq, scenarioA_time_length]
    decide
  · rw [stimAfter_eq, scenarioA_time_length]
    decide
  · rw [scenarioA_time_length]
    have hmin : min (65 * 16) 8000 - 1 = 1039 := by norm_num
    rw [hmin]
    exact scenarioA_time_get 1039 (by norm_num)

/-- C2 (amended): each trigger is newly fired on exactly one tick per
cycle — the first tick whose reveal index is at least the threshold's
sample index `int(T/dt)` — and on no other tick. -/
theorem C2_trigger_fires_once (d : TraceData) (v : ℚ) (τ : ℕ)
    (hv : (v, τ) ∈ trigPairs) :
    (∀ n, (v ∈ stimAfter d (n + 1) ∧ v ∉ stimAfter d n) ↔
        (τ ≤ idxAt d.time.length n ∧ ∀ m, m < n → idxAt d.time.length m < τ)) ∧
    (∀ n m, (v ∈ stimAfter d (n + 1) ∧ v ∉ stimAfter d n) →
        (v ∈ stimAfter d (m + 1) ∧ v ∉ stimAfter d m) → n = m) := by
  have hcases : (∀ j, v ∈ expectedMarkers j ↔ τ ≤ j) ∧ 0 < τ := by
    simp [trigPairs, Prod.ext_iff] at hv
    rcases hv with ⟨rfl, rfl⟩ | ⟨rfl, rfl⟩ | ⟨rfl, rfl⟩
    · exact ⟨mem_expectedMarkers_21, by norm_num⟩
    · exact ⟨mem_expectedMarkers_26, by norm_num⟩
    · exact ⟨mem_expectedMarkers_61, by norm_num⟩
  obtain ⟨hmem, hτ⟩ := hcases
  have key : ∀ n, (v ∈ stimAfter d (n + 1) ∧ v ∉ stimAfter d n) ↔
      (τ ≤ idxAt d.time.length n ∧ ∀ m, m < n → idxAt d.time.length m < τ) := by
    intro n
    rw [stimAfter_eq, stimAfter_eq, hmem, hmem]
    constructor
    · rintro ⟨h1, h2⟩
      refine ⟨h1, fun m hm => ?_⟩
      have hle : idxAt d.time.length m ≤ idxBefore d.time.length n := by
        cases n with
        | zero => omega
        | succ k => exact idxAt_mono (by omega)
      omega
    · rintro ⟨h1, h2⟩
      refine ⟨h1, ?_⟩
      cases n with
      | zero =>
          show ¬ τ ≤ 0
          omega
      | succ k =>
          have hk := h2 k (Nat.lt_succ_self k)
          show ¬ τ ≤ idxAt d.time.length k
          omega
  refine ⟨key, fun n m hn hm => ?_⟩
  obtain ⟨hn1, hn2⟩ := (key n).1 hn
  obtain ⟨hm1, hm2⟩ := (key m).1 hm
  rcases lt_trichotomy n m with hlt | heq | hgt
  · have := hm2 n hlt
    omega
  · exact heq
  · have := hn2 m hgt
    omega

/-- C2 witness: the amended theorem at a concrete trigger and data. -/
theorem C2_trigger_fires_once_witness :
    ((21 : ℚ) ∈ stimAfter ⟨[], [], []⟩ 1 ∧ (21 : ℚ) ∉ stimAfter ⟨[], [], []⟩ 0) ↔
      (840 ≤ idxAt (⟨[], [], []⟩ : TraceData).time.length 0 ∧
        ∀ m, m < 0 → idxAt (⟨[], [], []⟩ : TraceData).time.length m < 840) :=
  (C2_trigger_fires_once ⟨[], [], []⟩ 21 840 (by decide)).1 0

/-- C3 counterexample: the excitation-inhibition script's extraction
raises `KeyError` (modelled as `none`) when `cell_0` is absent from the
simulation output, so absence of a channel *can* cause a crash in this
repository. -/
theorem C3_missing_channel_counterexample :
    extractTracesAB [("cell_1", [])] = none := by
  decide

/-- C3 (amended): in the two temporal-summation scripts a missing channel
yields `[]` without error and leaves the other channel's value sequence and
per-tick visible slice untouched; in the excitation-inhibition script,
however, direct indexing raises `KeyError` on a missing channel. -/
theorem C3_missing_channel_degrades (m : List (String × List ℚ)) (vs : List ℚ)
    (h0 : m.lookup "cell_0" = none) (h1 : m.lookup "cell_1" = some vs) :
    extractTraces (some m) = ([], vs) ∧
    extractTracesAB m = none ∧
    (∀ (time : List ℚ) (frame : ℕ),
      (update frame ⟨⟨time, [], vs⟩, [], false⟩).map (fun z => z.2.narrow_slice) =
        some (time.take (idxAt time.length frame), vs.take (idxAt time.length frame))) := by
  refine ⟨?_, ?_, ?_⟩
  · simp [extractTraces, h0, h1]
  · simp [extractTracesAB, h0]
  · intro time frame
    rw [update_shape]
    rfl

/-- C3 witness: a concrete output with `cell_1` but no `cell_0`. -/
theorem C3_missing_channel_degrades_witness :
    extractTraces (some [("cell_1", [(5 : ℚ)])]) = ([], [5]) :=
  (C3_missing_channel_degrades [("cell_1", [5])] [5] (by decide) (by decide)).1

/-- C4: for `N, step > 0` the reveal-index sequence `min(k*step, N)` is
non-decreasing, and it equals `N` exactly from call `ceil(N/step)` on
(so the first call on which it equals `N` is call `ceil(N/step)`). -/
theorem C4_clock_monotone_reaches_N (N step : ℕ) (hN : 0 < N) (hstep : 0 < step) :
    (∀ k, advanceIdx step N k ≤ advanceIdx step N (k + 1)) ∧
    (∀ k, advanceIdx step N k = N ↔ (N + step - 1) / step ≤ k) := by
  constructor
  · intro k
    exact min_le_min (Nat.mul_le_mul_right step (Nat.le_succ k)) (le_refl N)
  · intro k
    unfold advanceIdx
    rw [min_eq_right_iff, Nat.div_le_iff_le_mul_add_pred hstep, Nat.mul_comm step k]
    have h16 : N ≤ k * step ↔ N + step - 1 ≤ k * step + (step - 1) := by omega
    exact h16

/-- C4 witness: N = 5, step = 2, where ceil(5/2) = 3. -/
theorem C4_clock_witness :
    (∀ k, advanceIdx 2 5 k ≤ advanceIdx 2 5 (k + 1)) ∧
    (∀ k, advanceIdx 2 5 k = 5 ↔ (5 + 2 - 1) / 2 ≤ k) :=
  C4_clock_monotone_reaches_N 5 2 (by norm_num) (by norm_num)

/-- C5: once the frame sequence of a cycle is exhausted, the restart tick
performs `init`: markers cleared, patch hidden, trace data unchanged, frame
counter back to 0 (so the next reveal index is 0); the final frame of the
completed cycle was fully revealed (`idx = N`), and a frame-delivering tick
never removes markers, so the completed cycle's last frame still rendered
them all. -/
theorem C5_cycle_restart (p : PlayerState) (hp : p.frame = numFrames p.anim.data) :
    driverTick p = some (⟨init p.anim, 0⟩, none) ∧
    (init p.anim).stim_lines = [] ∧
    (init p.anim).summation_visible = false ∧
    (init p.anim).data = p.anim.data ∧
    idxAt p.anim.data.time.length 0 = 0 ∧
    idxAt p.anim.data.time.length (numFrames p.anim.data - 1) =
      p.anim.data.time.length ∧
    (∀ q : PlayerState, q.frame < numFrames q.anim.data → ∀ z, driverTick q = some z →
        InitSeg q.anim.stim_lines z.1.anim.stim_lines) := by
  refine ⟨?_, rfl, rfl, rfl, ?_, ?_, ?_⟩
  · unfold driverTick
    rw [if_neg (by omega)]
  · simp [idxAt]
  · have hlen : p.anim.data.time.length ≤ (numFrames p.anim.data - 1) * 16 := by
      unfold numFrames
      omega
    exact min_eq_right hlen
  · intro q hq z hz
    rw [driverTick, if_pos hq, update_shape, Option.map_some'] at hz
    obtain rfl := Option.some.inj hz
    exact initSeg_stimStep _ _

/-- C5 witness: the restart tick on a concrete completed cycle. -/
theorem C5_cycle_restart_witness :
    driverTick donePlayer = some (⟨init donePlayer.anim, 0⟩, none) :=
  (C5_cycle_restart donePlayer (by decide)).1

/-- C6: in scenario A the sample index of time 21.0 is 840; frame 53 is the
first tick whose reveal index reaches it; on that tick exactly one new
marker appears (`[] -> [21]`); and within the cycle the marker list of an
earlier tick is always an initial segment of that of a later one (no fired
marker ever disappears). -/
theorem C6_scenarioA_first_marker :
    scenarioA.time.get? 840 = some 21 ∧
    (∀ f, 840 ≤ idxAt scenarioA.time.length f ↔ 53 ≤ f) ∧
    stimAfter scenarioA 53 = [] ∧
    stimAfter scenarioA 54 = [21] ∧
    (∀ n m, n ≤ m → m ≤ numFrames scenarioA →
        InitSeg (stimAfter scenarioA n) (stimAfter scenarioA m)) := by
  refine ⟨?_, ?_, ?_, ?_, ?_⟩
  · rw [scenarioA_time_get 840 (by norm_num)]
    norm_num
  · intro f
    rw [scenarioA_time_length]
    unfold idxAt
    omega
  · rw [stimAfter_eq, scenarioA_time_length]
    decide
  · rw [stimAfter_eq, scenarioA_time_length]
    decide
  · intro n m hnm _
    rw [stimAfter_eq, stimAfter_eq]
    exact expectedMarkers_initSeg (idxBefore_mono hnm)

/-- C6 witness: persistence applied at concrete ticks 0 and 1. -/
theorem C6_scenarioA_first_marker_witness :
    InitSeg (stimAfter scenarioA 0) (stimAfter scenarioA 1) :=
  C6_scenarioA_first_marker.2.2.2.2 0 1 (by norm_num)
    (by unfold numFrames; rw [scenarioA_time_length]; norm_num)

/-- C7: every tick renders, for each channel, exactly the first `idx`
samples of its trace and of the shared time sequence (the same `idx` for
both channels — including a channel degraded to `[]`, whose take is then
empty), with `idx ≤ N`, and the time slice has exactly `idx` samples. -/
theorem C7_shared_reveal_slices (s : AnimState) (frame : ℕ) :
    (update frame s).map (fun z => (z.2.wide_slice, z.2.narrow_slice)) =
      some ((s.data.time.take (idxAt s.data.time.length frame),
             s.data.V_wide.take (idxAt s.data.time.length frame)),
            (s.data.time.take (idxAt s.data.time.length frame),
             s.data.V_narrow.take (idxAt s.data.time.length frame))) ∧
    idxAt s.data.time.length frame ≤ s.data.time.length ∧
    (s.data.time.take (idxAt s.data.time.length frame)).length =
      idxAt s.data.time.length frame := by
  refine ⟨?_, min_le_right _ _, ?_⟩
  · rw [update_shape]
    rfl
  · rw [List.length_take]
    exact min_eq_left (min_le_right _ _)

/-- C8: with no data (`time = []`) every tick computes `idx = 0`, renders
empty slices, appends no marker, hides the highlight, and nothing fails;
moreover every driver tick performs exactly one action (one frame delivery
or one restart), so at most one degenerate cycle completes per tick. -/
theorem C8_empty_trace_inert (s : AnimState) (frame : ℕ) (h : s.data.time = []) :
    update frame s = some (⟨s.data, s.stim_lines, false⟩,
      ⟨([], []), ([], []), s.stim_lines, false⟩) ∧
    idxAt s.data.time.length frame = 0 ∧
    (∀ p : PlayerState, (driverTick p).isSome = true) ∧
    (∀ p : PlayerState, ∀ z, driverTick p = some z →
        (p.frame < numFrames p.anim.data ∧ z.1.frame = p.frame + 1) ∨
        (¬ p.frame < numFrames p.anim.data ∧ z.1.frame = 0 ∧ z.1.anim = init p.anim)) := by
  have hlen : s.data.time.length = 0 := by rw [h]; rfl
  refine ⟨?_, ?_, ?_, ?_⟩
  · rw [update_shape]
    simp [visAt, h, hlen, stimStep_zero]
  · simp [idxAt, hlen]
  · intro p
    unfold driverTick
    split_ifs with hp
    · rw [update_shape]
      rfl
    · rfl
  · intro p z hz
    unfold driverTick at hz
    split_ifs at hz with hp
    · left
      rw [update_shape, Option.map_some'] at hz
      obtain rfl := Option.some.inj hz
      exact ⟨hp, rfl⟩
    · right
      obtain rfl := Option.some.inj hz
      exact ⟨hp, rfl, rfl⟩

/-- C8 witness: a concrete empty-data state at frame 5. -/
theorem C8_empty_trace_inert_witness :
    update 5 ⟨⟨[], [], []⟩, [], false⟩ =
      some (⟨⟨[], [], []⟩, [], false⟩, ⟨([], []), ([], []), [], false⟩) :=
  (C8_empty_trace_inert ⟨⟨[], [], []⟩, [], false⟩ 5 rfl).1

/-- C9: the saturating clamp keeps `idx` in `[0, N]` for every frame
number, the guarded element read `time[idx-1]` is in range whenever it is
performed, and `update` never fails. -/
theorem C9_reveal_clamp_safe (s : AnimState) (frame : ℕ) :
    idxAt s.data.time.length frame ≤ s.data.time.length ∧
    (0 < idxAt s.data.time.length frame →
      idxAt s.data.time.length frame - 1 < s.data.time.length) ∧
    (update frame s).isSome = true := by
  refine ⟨min_le_right _ _, ?_, ?_⟩
  · intro h
    have h2 := min_le_right (frame * 16) s.data.time.length
    unfold idxAt at h ⊢
    omega
  · rw [update_shape]
    rfl

/-- C9 witness: frame 1 on a two-sample trace. -/
theorem C9_reveal_clamp_safe_witness :
    idxAt sampleState.data.time.length 1 - 1 < sampleState.data.time.length :=
  (C9_reveal_clamp_safe sampleState 1).2.1 (by decide)

/-- C10: within a cycle the marker list grows monotonically, is always an
initial segment of `[21, 26, 61]` (hence ordered and of size at most 3),
and a later trigger can be present only if every earlier one already is. -/
theorem C10_marker_order (d : TraceData) :
    (∀ n, InitSeg (stimAfter d n) (stimAfter d (n + 1))) ∧
    (∀ n, InitSeg (stimAfter d n) [21, 26, 61]) ∧
    (∀ n, (stimAfter d n).length ≤ 3) ∧
    (∀ n, (26 : ℚ) ∈ stimAfter d n → (21 : ℚ) ∈ stimAfter d n) ∧
    (∀ n, (61 : ℚ) ∈ stimAfter d n → (26 : ℚ) ∈ stimAfter d n) := by
  refine ⟨?_, ?_, ?_, ?_, ?_⟩
  · intro n
    rw [stimAfter_eq, stimAfter_eq]
    exact expectedMarkers_initSeg (idxBefore_mono (Nat.le_succ n))
  · intro n
    rw [stimAfter_eq]
    exact ⟨_, List.take_append_drop _ _⟩
  · intro n
    rw [stimAfter_eq]
    unfold expectedMarkers
    rw [List.length_take]
    exact min_le_right _ _
  · intro n h
    rw [stimAfter_eq] at h ⊢
    rw [mem_expectedMarkers_26] at h
    rw [mem_expectedMarkers_21]
    omega
  · intro n h
    rw [stimAfter_eq] at h ⊢
    rw [mem_expectedMarkers_61] at h
    rw [mem_expectedMarkers_26]
    omega

/-- C10 witness: on a concrete run where the `26` marker is present, the
`21` marker is present too. -/
theorem C10_marker_order_witness :
    (21 : ℚ) ∈ stimAfter mediumTrace 66 :=
  (C10_marker_order mediumTrace).2.2.2.1 66 (by
    rw [stimAfter_eq]
    have hl : mediumTrace.time.length = 1040 := by
      show (List.replicate 1040 (0 : ℚ)).length = 1040
      rw [List.length_replicate]
    rw [hl]
    decide)

end TemporalSummation
